import Mathlib

/-!
Verification development for the summation-check repository.

This file gives a shallow embedding of the core modules the specification
covers — the metadata-matching engine (src/match_metadata.py), the
controller's manual-hint handling (src/controller.py), and the filesystem
event debouncing and new-download pipeline (src/file_monitor.py) — and
proves the claims about them.

Modelling conventions:
- Python strings are Lean String values; machine timestamps and difflib
  similarity ratios are rational numbers.
- Effectful calls into the OS or external libraries (PyPDF2, langextract,
  the filesystem) are supplied as fields of an environment structure:
  a field of type Except PyErr A models a call that either raises or
  returns an A.  Python exceptions are modelled as values of PyErr; the
  isOSError flag distinguishes IOError/OSError (which some inner handlers
  catch) from other Exception subclasses.
- Fallible code returns Except / Option; side effects (files written,
  events emitted) are returned as explicit outcome fields.
-/

/-- A Python exception value.  isOSError is true for IOError/OSError
instances, false for other Exception subclasses; this is the only
distinction the embedded code inspects. -/
structure PyErr where
  isOSError : Bool
deriving DecidableEq, Repr

/-- Characters for which Python's str.isspace() (and the regex class \s on
str, and str.strip() with no arguments) is true. -/
def pyIsSpace (c : Char) : Bool :=
  let n := c.toNat
  n == 32 || n == 9 || n == 10 || n == 13 || n == 11 || n == 12 ||
  (Nat.ble 28 n && Nat.ble n 31) || n == 133 || n == 160 || n == 0x1680 ||
  (Nat.ble 0x2000 n && Nat.ble n 0x200a) || n == 0x2028 || n == 0x2029 ||
  n == 0x202f || n == 0x205f || n == 0x3000

/-- Python str.strip() with no arguments: drop leading and trailing
whitespace characters. -/
def pyStrip (s : String) : String :=
  String.mk (((s.data.dropWhile pyIsSpace).reverse.dropWhile pyIsSpace).reverse)

/-- Python str.replace restricted to single-character pattern and
replacement, as used for filename candidates: substitute every
occurrence. -/
def replaceChar (s : String) (pat sub : Char) : String :=
  String.mk (s.data.map fun c => if c = pat then sub else c)

/-- p is a prefix of the character list s. -/
def listIsPrefixOf : List Char → List Char → Bool
  | [], _ => true
  | _ :: _, [] => false
  | c :: cs, d :: ds => c == d && listIsPrefixOf cs ds

/-- Python str.startswith. -/
def strStartsWith (s p : String) : Bool :=
  listIsPrefixOf p.data s.data

/-- Python slicing s[:n]: the first n characters. -/
def strTake (s : String) (n : ℕ) : String :=
  String.mk (s.data.take n)

/-- Model of the external unicodedata/codec pipeline
unicodedata.normalize(NFKD, c).encode(ascii, ignore): each character maps
to the ASCII characters of its NFKD decomposition.  ASCII characters are
NFKD-inert and survive the ascii codec unchanged; U+FB01 (the fi ligature,
used in this development) has compatibility decomposition "fi"; every
other non-ASCII character used in this development has a decomposition
containing no ASCII character, hence is dropped by the ignore handler. -/
def asciiNFKD (c : Char) : List Char :=
  if c.toNat < 128 then [c]
  else if c = 'ﬁ' then ['f', 'i']
  else []

/-- normalize_text from src/match_metadata.py: NFKD-decompose, strip to
ASCII, lowercase, trim surrounding whitespace. -/
def normalize_text (text : String) : String :=
  pyStrip (String.mk (((text.data.map asciiNFKD).flatten).map Char.toLower))

/-!
Model of difflib.SequenceMatcher(None, a, b).ratio() from the Python
standard library, as called by _find_best_match.  The model implements the
junk-free regime: SequenceMatcher's autojunk heuristic only activates when
the second sequence has length at least 200, and with no junk the two
block-extension loops of find_longest_match are no-ops, so the plain
dynamic program below computes the same matching blocks.
-/

/-- Positions j in [blo, bhi) with b[j] = c, in increasing order: the
entries of SequenceMatcher's b2j index for c that the inner loop of
find_longest_match visits. -/
def occIndices (b : List Char) (c : Char) (blo bhi : ℕ) : List ℕ :=
  (List.range b.length).filter fun j =>
    decide (blo ≤ j) && decide (j < bhi) && decide (b.get? j = some c)

/-- One row of find_longest_match's dynamic program: given the previous
row j2len, the current index i into a, and the occurrence positions of
a[i] in b, build the new row and update the best block.  A best block is
(besti, bestj, bestsize); a longer block strictly beats the incumbent, so
ties keep the earliest block. -/
def flmRow (j2len : ℕ → ℕ) (i : ℕ) (js : List ℕ) (best : ℕ × ℕ × ℕ) :
    (ℕ → ℕ) × (ℕ × ℕ × ℕ) :=
  js.foldl
    (fun acc j =>
      let k := (if j = 0 then 0 else j2len (j - 1)) + 1
      let nj : ℕ → ℕ := fun m => if m = j then k else acc.1 m
      let b := if acc.2.2.2 < k then (i + 1 - k, j + 1 - k, k) else acc.2
      (nj, b))
    ((fun _ => 0), best)

/-- find_longest_match(alo, ahi, blo, bhi) of SequenceMatcher, junk-free:
returns (i, j, k), the longest block with a[i:i+k] = b[j:j+k] inside the
given windows, earliest in a then in b on ties. -/
def findLongestMatch (a b : List Char) (alo ahi blo bhi : ℕ) : ℕ × ℕ × ℕ :=
  ((List.range' alo (ahi - alo)).foldl
    (fun (acc : (ℕ → ℕ) × (ℕ × ℕ × ℕ)) i =>
      match a.get? i with
      | some c => flmRow acc.1 i (occIndices b c blo bhi) acc.2
      | none => ((fun _ => 0), acc.2))
    ((fun _ => 0), (alo, blo, 0))).2

/-- Total size of the matching blocks of get_matching_blocks, computed by
the recursive divide at the longest match.  The fuel argument bounds the
recursion depth; every recursive call strictly shrinks the combined window
size, so fuel = combined window size + 1 suffices. -/
def matchBlocksTotal (a b : List Char) : ℕ → ℕ → ℕ → ℕ → ℕ → ℕ
  | 0, _, _, _, _ => 0
  | fuel + 1, alo, ahi, blo, bhi =>
    let r := findLongestMatch a b alo ahi blo bhi
    if r.2.2 = 0 then 0
    else
      r.2.2 + matchBlocksTotal a b fuel alo r.1 blo r.2.1
            + matchBlocksTotal a b fuel (r.1 + r.2.2) ahi (r.2.1 + r.2.2) bhi

/-- difflib.SequenceMatcher(None, a, b).ratio(): twice the number of
matched elements over the total length (built with mkRat, which equals
the division since the denominator is positive in that branch), and 1
when both strings are empty. -/
def ratioOf (a b : String) : ℚ :=
  let la := a.data.length
  let lb := b.data.length
  let nMatched := matchBlocksTotal a.data b.data (la + lb + 1) 0 la 0 lb
  if la + lb = 0 then 1 else mkRat (2 * (nMatched : ℤ)) (la + lb)

/-- A metadata record: a Python dict with an optional title string (read
via meta.get with default empty string) and an optional PubMed
identifier. -/
structure MetaRecord where
  title : Option String
  pubMedIdentifier : Option String
deriving DecidableEq, Repr

/-- Similarity score of one record against an already-normalized
candidate, as computed inside the loop of _find_best_match. -/
def scoreOf (norm : String) (meta : MetaRecord) : ℚ :=
  ratioOf norm (normalize_text (meta.title.getD ""))

/-- The loop body of _find_best_match: keep (similarity, meta) when the
similarity reaches the threshold. -/
def candFilter (norm : String) (thr : ℚ) (meta : MetaRecord) :
    Option (ℚ × MetaRecord) :=
  if thr ≤ scoreOf norm meta then some (scoreOf norm meta, meta) else none

/-- The candidates list accumulated by _find_best_match, in input order. -/
def scoredCandidates (norm : String) (metadata_set : List MetaRecord)
    (thr : ℚ) : List (ℚ × MetaRecord) :=
  metadata_set.filterMap (candFilter norm thr)

/-- Python max(candidates, key of first component): scan left to right,
replace the incumbent only on strict increase, so the first element with
the maximal key wins. -/
def pyMaxBy : (ℚ × MetaRecord) → List (ℚ × MetaRecord) → (ℚ × MetaRecord)
  | best, [] => best
  | best, x :: xs => pyMaxBy (if best.1 < x.1 then x else best) xs

/-- _find_best_match from src/match_metadata.py. -/
def _find_best_match (title_to_match : String)
    (metadata_set : List MetaRecord) (similarity_threshold : ℚ) :
    Option MetaRecord :=
  if title_to_match = "" then none
  else
    match scoredCandidates (normalize_text title_to_match) metadata_set
        similarity_threshold with
    | [] => none
    | c :: cs => some (pyMaxBy c cs).2

/-- Similarity of record m against raw candidate t, i.e. the score
_find_best_match t computes for m. -/
def recScore (t : String) (m : MetaRecord) : ℚ :=
  scoreOf (normalize_text t) m

/-!
Embedding of get_title_from_text and match_pdf_to_metadata from
src/match_metadata.py.  The PDF, the filesystem and the external
libraries are supplied through a PdfEnv environment; the engine returns
its match result together with its observable side effects (whether the
content-extraction fallback ran and what, if anything, was written to the
sidecar cache file).
-/

/-- Environment of one match invocation: the PDF's path split into
directory, stem (basename without extension) and extension, plus the
outcome of every external interaction the engine can perform. -/
structure PdfEnv where
  /-- os.path.dirname of the PDF path. -/
  dir : String
  /-- os.path.splitext(os.path.basename(path))[0]. -/
  stem : String
  /-- The extension, e.g. ".pdf". -/
  ext : String
  /-- Opening the PDF and reading reader.metadata.get of the /Title key:
  an exception, or the raw value (none when the key is absent). -/
  titleField : Except PyErr (Option String)
  /-- The sidecar cache file: none when os.path.exists is false, otherwise
  the outcome of opening and reading it. -/
  sidecar : Option (Except PyErr String)
  /-- Opening the PDF with PyPDF2 in get_title_from_text and calling
  extract_text on each page (none for a page returning None). -/
  pdfPages : Except PyErr (List (Option String))
  /-- The langextract call: the extracted title of the first extraction,
  or none when the call raises or yields no extractions (both are treated
  identically by the code apart from logging). -/
  lxResult : Option String
  /-- Opening the sidecar cache file for writing and writing to it. -/
  cacheWrite : Except PyErr Unit
deriving Repr

/-- The effective metadata_title variable of match_pdf_to_metadata: empty
on a read error or an absent or falsy /Title, otherwise the stripped raw
title. -/
def metadataTitle (env : PdfEnv) : String :=
  match env.titleField with
  | .error _ => ""
  | .ok none => ""
  | .ok (some raw) => if raw = "" then "" else pyStrip raw

/-- The filename-derived candidate of step 2: the stem with underscores
and hyphens replaced by spaces. -/
def filenameTitle (env : PdfEnv) : String :=
  replaceChar (replaceChar env.stem '_' ' ') '-' ' '

/-- The page-accumulation loop of get_title_from_text: append each
non-empty page text, stopping once the accumulator reaches 3000
characters. -/
def accumPages : List (Option String) → String → String
  | [], acc => acc
  | p :: ps, acc =>
    let acc1 := match p with
      | some t => if t = "" then acc else acc ++ t
      | none => acc
    if 3000 ≤ acc1.length then acc1 else accumPages ps acc1

/-- text.replace of U+2002 EN SPACE by a regular space. -/
def replaceEnSpace (s : String) : String :=
  String.mk (s.data.map fun c => if c = ' ' then ' ' else c)

/-- re.sub of maximal whitespace runs by a single space: the Boolean
argument records whether the previous character was part of a run. -/
def collapseWsAux : List Char → Bool → List Char
  | [], _ => []
  | c :: cs, prevWs =>
    if pyIsSpace c then
      if prevWs then collapseWsAux cs true
      else ' ' :: collapseWsAux cs true
    else c :: collapseWsAux cs false

/-- The text clean-up of get_title_from_text: replace EN SPACE, collapse
whitespace runs, strip. -/
def cleanTitleText (s : String) : String :=
  pyStrip (String.mk (collapseWsAux (replaceEnSpace s).data false))

/-- Result of get_title_from_text: the returned value (or a propagated
exception) together with the content written to the sidecar cache file,
if any. -/
structure ExtractResult where
  ret : Except PyErr (Option String)
  wrote : Option String
deriving Repr

/-- get_title_from_text from src/match_metadata.py.  Reading the PDF text
is guarded by a local handler returning None; an empty raw or cleaned
text returns None before any caching; otherwise the langextract result is
written to the sidecar (empty string when nothing was found) and
returned.  A cache-write failure that is an IOError/OSError is logged and
swallowed; any other exception from the write propagates. -/
def get_title_from_text (env : PdfEnv) : ExtractResult :=
  match env.pdfPages with
  | .error _ => ⟨.ok none, none⟩
  | .ok pages =>
    let text := strTake (accumPages pages "") 3000
    if text = "" then ⟨.ok none, none⟩
    else
      let cleaned := cleanTitleText text
      if cleaned = "" then ⟨.ok none, none⟩
      else
        let extracted_title := env.lxResult
        match env.cacheWrite with
        | .ok _ => ⟨.ok extracted_title, some (extracted_title.getD "")⟩
        | .error e =>
          if e.isOSError then ⟨.ok extracted_title, none⟩
          else ⟨.error e, none⟩

/-- Observable outcome of the body of match_pdf_to_metadata before the
top-level exception handler: the returned record or a raised exception,
whether get_title_from_text was invoked, and what it wrote to the sidecar
cache file. -/
structure BodyOutcome where
  ret : Except PyErr (Option MetaRecord)
  calledExtraction : Bool
  wroteSidecar : Option String
deriving Repr

/-- Observable outcome of match_pdf_to_metadata after the top-level
exception handler. -/
structure MatchOutcome where
  result : Option MetaRecord
  calledExtraction : Bool
  wroteSidecar : Option String
deriving Repr

/-- The body of match_pdf_to_metadata (everything inside the top-level
try): step 1 uses the embedded title exclusively when its stripped length
is at least 8; step 2 matches the filename-derived candidate at threshold
0.6; step 3 consults the sidecar cache and only on a cache miss invokes
get_title_from_text. -/
def matchBody (env : PdfEnv) (metadata_set : List MetaRecord) : BodyOutcome :=
  let metadata_title := metadataTitle env
  if 8 ≤ metadata_title.length then
    ⟨.ok (_find_best_match metadata_title metadata_set (mkRat 9 10)), false, none⟩
  else
    match _find_best_match (filenameTitle env) metadata_set (mkRat 6 10) with
    | some m => ⟨.ok (some m), false, none⟩
    | none =>
      match env.sidecar with
      | some readResult =>
        match readResult with
        | .ok content =>
          let content_title := pyStrip content
          if content_title = "" then ⟨.ok none, false, none⟩
          else
            match _find_best_match content_title metadata_set (mkRat 9 10) with
            | some m => ⟨.ok (some m), false, none⟩
            | none => ⟨.ok none, false, none⟩
        | .error e =>
          if e.isOSError then ⟨.ok none, false, none⟩
          else ⟨.error e, false, none⟩
      | none =>
        let er := get_title_from_text env
        match er.ret with
        | .error e => ⟨.error e, true, er.wrote⟩
        | .ok content_title =>
          match content_title with
          | some t =>
            if t = "" then ⟨.ok none, true, er.wrote⟩
            else
              match _find_best_match t metadata_set (mkRat 9 10) with
              | some m => ⟨.ok (some m), true, er.wrote⟩
              | none => ⟨.ok none, true, er.wrote⟩
          | none => ⟨.ok none, true, er.wrote⟩

/-- match_pdf_to_metadata from src/match_metadata.py: the body wrapped in
the top-level handler that converts any exception to no match. -/
def match_pdf_to_metadata (env : PdfEnv) (metadata_set : List MetaRecord) :
    MatchOutcome :=
  let b := matchBody env metadata_set
  match b.ret with
  | .ok r => ⟨r, b.calledExtraction, b.wroteSidecar⟩
  | .error _ => ⟨none, b.calledExtraction, b.wroteSidecar⟩

/-!
Embedding of the controller's manual-hint handling
(Controller.on_pdf_detected and Controller._handle_successful_match from
src/controller.py).
-/

/-- The controller state relevant to PDF handling: the manual PMID hint
and the loaded metadata snapshot. -/
structure CtrlState where
  pmid_hint : Option String
  metadata_set : List MetaRecord
deriving DecidableEq, Repr

/-- Filesystem interactions of _handle_successful_match. -/
structure CtrlEnv where
  /-- os.path.exists of the sidecar .title file. -/
  titleFileExists : Bool
  /-- os.remove of the sidecar succeeds (an OSError is caught locally). -/
  removeOk : Bool
  /-- os.rename of the PDF: unit on success, an exception otherwise
  (caught by the surrounding handler, which emits an error event). -/
  renameResult : Except PyErr Unit
deriving Repr

/-- Observable effects of one on_pdf_detected invocation. -/
structure CtrlEffects where
  /-- Whether match_pdf_to_metadata was invoked (the cascade ran). -/
  ranCascade : Bool
  /-- The new filename the PDF was renamed to, when a rename happened. -/
  renamedTo : Option String
  /-- Whether error_occurred was emitted. -/
  errorEmitted : Bool
  /-- Whether the sidecar .title file was removed. -/
  removedTitleFile : Bool
deriving DecidableEq, Repr

/-- Python truthiness of the pmid_hint attribute (None and the empty
string are falsy). -/
def hintTruthy : Option String → Bool
  | some s => s != ""
  | none => false

/-- Controller._handle_successful_match: remove the sidecar cache file if
present, and when the matched record carries a truthy pubMedIdentifier,
rename the PDF with the PMID prefix and clear the hint; a rename failure
is caught, reported as an error event, and leaves the hint in place. -/
def handle_successful_match (st : CtrlState) (env : PdfEnv) (ce : CtrlEnv)
    (m : MetaRecord) (ranCascade : Bool) : CtrlState × CtrlEffects :=
  let removed := ce.titleFileExists && ce.removeOk
  match m.pubMedIdentifier with
  | some pid =>
    if pid = "" then (st, ⟨ranCascade, none, false, removed⟩)
    else
      match ce.renameResult with
      | .ok _ =>
        let newName := "PMID:" ++ pid ++ "-" ++ (env.stem ++ env.ext)
        let st1 := if hintTruthy st.pmid_hint then
            { st with pmid_hint := none } else st
        (st1, ⟨ranCascade, some newName, false, removed⟩)
      | .error _ => (st, ⟨ranCascade, none, true, removed⟩)
  | none => (st, ⟨ranCascade, none, false, removed⟩)

/-- Controller.on_pdf_detected: bail out when no metadata is loaded; with
a truthy hint, force-associate the PDF with the hint instead of running
the cascade; otherwise run match_pdf_to_metadata and handle a successful
match. -/
def on_pdf_detected (st : CtrlState) (env : PdfEnv) (ce : CtrlEnv) :
    CtrlState × CtrlEffects :=
  if st.metadata_set = [] then (st, ⟨false, none, false, false⟩)
  else if hintTruthy st.pmid_hint then
    let h := st.pmid_hint.getD ""
    let m : MetaRecord :=
      ⟨some ("Manually Associated with PMID:" ++ h), some h⟩
    handle_successful_match st env ce m false
  else
    match (match_pdf_to_metadata env st.metadata_set).result with
    | some m => handle_successful_match st env ce m true
    | none => (st, ⟨true, none, false, false⟩)

/-!
Embedding of the debouncing event handlers and the new-download pipeline
(EventHandler.on_moved, EventHandler.on_modified and
EventHandler.handle_new_download from src/file_monitor.py).  Wall-clock
instants are rationals; event paths are taken as already absolute, which
models os.path.abspath on inputs from the watcher.
-/

/-- The last_moved dictionary: an association list from (source path,
destination path) keys to the timestamp last recorded for the key. -/
def lookupMoved : List ((String × String) × ℚ) → (String × String) → Option ℚ
  | [], _ => none
  | (k, t) :: rest, key => if k = key then some t else lookupMoved rest key

/-- Dictionary update last_moved[key] = now: replace the existing entry
or add one. -/
def insertMoved : List ((String × String) × ℚ) → (String × String) → ℚ →
    List ((String × String) × ℚ)
  | [], key, now => [(key, now)]
  | (k, t) :: rest, key, now =>
    if k = key then (k, now) :: rest else (k, t) :: insertMoved rest key now

/-- Debounce state of EventHandler.on_moved. -/
structure MoveState where
  last_moved : List ((String × String) × ℚ)
deriving Repr

/-- EventHandler.on_moved: ignore directories; discard an event whose
(source, destination) key was recorded less than 2 seconds ago; otherwise
record the key at the current instant and emit pdf_folder_changed when
the source or destination lies under the PDF folder.  The returned Bool
is whether pdf_folder_changed was emitted. -/
def on_moved (st : MoveState) (now : ℚ) (isDir : Bool)
    (src dest pdfFolder : String) : MoveState × Bool :=
  if isDir then (st, false)
  else
    let key := (src, dest)
    let debounced :=
      match lookupMoved st.last_moved key with
      | some t => decide (now - t < 2)
      | none => false
    if debounced then (st, false)
    else
      (⟨insertMoved st.last_moved key now⟩,
        strStartsWith src pdfFolder || strStartsWith dest pdfFolder)

/-- Debounce state of EventHandler.on_modified: the timestamp of the last
accepted project-file modification (initially 0). -/
structure ModState where
  last_project_file_mod_time : ℚ
deriving DecidableEq, Repr

/-- EventHandler.on_modified: only non-directory events on the watched
project file are considered; an event less than 2 seconds after the last
accepted one is discarded; otherwise the instant is recorded, the handler
settles for 0.5 seconds, re-reads the file size (sizeAfterSettle models
os.path.getsize after the sleep; an OSError is caught and logged), and
emits project_file_changed only when the size is positive.  The returned
Bool is whether project_file_changed was emitted. -/
def on_modified (st : ModState) (now : ℚ) (isDir : Bool)
    (path projectPath : String) (sizeAfterSettle : Except PyErr ℕ) :
    ModState × Bool :=
  if !isDir && path == projectPath then
    if now - st.last_project_file_mod_time < 2 then (st, false)
    else
      match sizeAfterSettle with
      | .ok n => (⟨now⟩, decide (0 < n))
      | .error _ => (⟨now⟩, false)
  else (st, false)

/-- An error raised by the move/copy file operation; shutil.Error,
IOError and OSError are the kinds the handler catches, and
isFileNotFound marks FileNotFoundError (or errno 2). -/
structure FileOpErr where
  isFileNotFound : Bool
deriving DecidableEq, Repr

/-- re.match of the pattern PMID:\d+ against a filename: the name starts
with PMID: followed by at least one digit. -/
def pmidTagged (name : String) : Bool :=
  strStartsWith name "PMID:" &&
    (match name.data.drop 5 with
     | c :: _ => c.isDigit
     | [] => false)

/-- Environment of one handle_new_download invocation. -/
structure DownloadEnv where
  /-- os.path.exists at the in-lock check. -/
  existsAtLockCheck : Bool
  /-- os.path.exists at the re-check after the 1 second wait. -/
  existsAfterWait : Bool
  /-- os.path.basename of the source path. -/
  fileName : String
  /-- The configured file_operation value (Copy, or anything else for
  the default Move). -/
  fileOperation : String
  /-- The shutil.copy2 or shutil.move call: unit on success, otherwise a
  caught error. -/
  opResult : Except FileOpErr Unit
deriving Repr

/-- Observable effects of handle_new_download. -/
structure DownloadEffects where
  /-- The destination of a completed move or copy, if one completed. -/
  opCompleted : Option String
  /-- The path emitted with pdf_detected, if it was emitted. -/
  pdfDetectedEmitted : Option String
  /-- Whether error_occurred was emitted. -/
  errorEmitted : Bool
deriving DecidableEq, Repr

/-- EventHandler.handle_new_download (the body inside the processing
lock): return silently when the file is gone at either existence check or
when its name already bears the PMID tag; otherwise perform the
configured move or copy and emit pdf_detected on success; an error that
is a FileNotFoundError is logged as a benign race, any other caught error
emits error_occurred. -/
def handle_new_download (env : DownloadEnv) (pdfFolder : String) :
    DownloadEffects :=
  if !env.existsAtLockCheck then ⟨none, none, false⟩
  else if !env.existsAfterWait then ⟨none, none, false⟩
  else if pmidTagged env.fileName then ⟨none, none, false⟩
  else
    let destination := pdfFolder ++ "/" ++ env.fileName
    match env.opResult with
    | .ok _ => ⟨some destination, some destination, false⟩
    | .error e =>
      if e.isFileNotFound then ⟨none, none, false⟩
      else ⟨none, none, true⟩

/-!
Helper lemmas about the top-level wrapper of match_pdf_to_metadata.
-/

/-- The top-level handler does not change whether extraction ran. -/
lemma wrap_calledExtraction (env : PdfEnv) (ms : List MetaRecord) :
    (match_pdf_to_metadata env ms).calledExtraction =
      (matchBody env ms).calledExtraction := by
  cases hb : matchBody env ms with
  | mk ret ce ws => cases ret <;> simp [match_pdf_to_metadata, hb]

/-- The top-level handler does not change what was written to the
sidecar. -/
lemma wrap_wroteSidecar (env : PdfEnv) (ms : List MetaRecord) :
    (match_pdf_to_metadata env ms).wroteSidecar =
      (matchBody env ms).wroteSidecar := by
  cases hb : matchBody env ms with
  | mk ret ce ws => cases ret <;> simp [match_pdf_to_metadata, hb]

/-- When the body returns normally, the wrapper returns its value. -/
lemma wrap_result_ok (env : PdfEnv) (ms : List MetaRecord)
    (r : Option MetaRecord) (h : (matchBody env ms).ret = .ok r) :
    (match_pdf_to_metadata env ms).result = r := by
  cases hb : matchBody env ms with
  | mk ret ce ws =>
    rw [hb] at h
    cases ret with
    | ok v => simp at h; simp [match_pdf_to_metadata, hb, h]
    | error e => simp at h

/-- C9: for every PDF environment and metadata list, an exception raised
anywhere in the body of a match invocation is caught by the top-level
handler and the call returns no match. -/
theorem match_never_propagates (env : PdfEnv) (ms : List MetaRecord)
    (e : PyErr) (h : (matchBody env ms).ret = .error e) :
    (match_pdf_to_metadata env ms).result = none := by
  cases hb : matchBody env ms with
  | mk ret ce ws =>
    rw [hb] at h
    cases ret with
    | ok v => simp at h
    | error e2 => simp [match_pdf_to_metadata, hb]

/-- Environment whose sidecar read raises a non-OSError exception, so
the body of the match raises. -/
def envC9 : PdfEnv :=
  ⟨"d", "", ".pdf", .ok none, some (.error ⟨false⟩), .error ⟨true⟩, none,
    .ok ()⟩

theorem match_never_propagates_witness :
    (matchBody envC9 []).ret = .error ⟨false⟩ ∧
    (match_pdf_to_metadata envC9 []).result = none :=
  ⟨rfl, match_never_propagates envC9 [] ⟨false⟩ rfl⟩

/-- C8: a new-download notification whose file is gone at the in-lock
existence check, gone at the re-check after the wait, or whose move/copy
fails with a file-not-found error, completes no file operation, emits no
pdf_detected and no error event, and returns silently. -/
theorem vanished_download_silent (env : DownloadEnv) (pdfFolder : String)
    (h : env.existsAtLockCheck = false ∨ env.existsAfterWait = false ∨
      env.opResult = .error ⟨true⟩) :
    handle_new_download env pdfFolder = ⟨none, none, false⟩ := by
  rcases h with h | h | h
  · simp [handle_new_download, h]
  · cases he : env.existsAtLockCheck <;>
      simp [handle_new_download, he, h]
  · cases he : env.existsAtLockCheck <;>
      cases hw : env.existsAfterWait <;>
      cases ht : pmidTagged env.fileName <;>
      simp [handle_new_download, he, hw, ht, h]

theorem vanished_download_silent_witness :
    (⟨true, true, "a.pdf", "Move", .error ⟨true⟩⟩ : DownloadEnv).opResult =
      .error ⟨true⟩ ∧
    handle_new_download ⟨true, true, "a.pdf", "Move", .error ⟨true⟩⟩ "pdfs" =
      ⟨none, none, false⟩ :=
  ⟨rfl, vanished_download_silent ⟨true, true, "a.pdf", "Move", .error ⟨true⟩⟩
    "pdfs" (Or.inr (Or.inr rfl))⟩

/-- C6: starting from a fresh debounce state, a move notification whose
source lies under the PDF folder propagates; a second notification with
the identical (source, destination) key is discarded when it arrives less
than 2 seconds later, so exactly one pdf_folder_changed effect occurs,
and propagates when it arrives 3 seconds later, so two effects occur. -/
theorem move_debounce_two_events (src dest pdfFolder : String) (t0 t1 : ℚ)
    (hfolder : strStartsWith src pdfFolder = true) :
    (on_moved ⟨[]⟩ t0 false src dest pdfFolder).2 = true ∧
    (t1 - t0 < 2 →
      on_moved (on_moved ⟨[]⟩ t0 false src dest pdfFolder).1 t1 false src
        dest pdfFolder =
        ((on_moved ⟨[]⟩ t0 false src dest pdfFolder).1, false)) ∧
    (t1 - t0 = 3 →
      (on_moved (on_moved ⟨[]⟩ t0 false src dest pdfFolder).1 t1 false src
        dest pdfFolder).2 = true) := by
  have h1 : on_moved ⟨[]⟩ t0 false src dest pdfFolder =
      (⟨[((src, dest), t0)]⟩, true) := by
    simp [on_moved, lookupMoved, insertMoved, hfolder]
  refine ⟨by rw [h1], ?_, ?_⟩
  · intro hlt
    rw [h1]
    simp [on_moved, lookupMoved, hlt]
  · intro heq
    have hnlt : ¬ (t1 - t0 < 2) := by rw [heq]; norm_num
    rw [h1]
    simp [on_moved, lookupMoved, insertMoved, hnlt, hfolder]

theorem move_debounce_two_events_witness :
    strStartsWith "pdfs/a.pdf" "pdfs" = true ∧
    (on_moved ⟨[]⟩ 10 false "pdfs/a.pdf" "pdfs/b.pdf" "pdfs").2 = true ∧
    on_moved (on_moved ⟨[]⟩ 10 false "pdfs/a.pdf" "pdfs/b.pdf" "pdfs").1 11
      false "pdfs/a.pdf" "pdfs/b.pdf" "pdfs" =
      ((on_moved ⟨[]⟩ 10 false "pdfs/a.pdf" "pdfs/b.pdf" "pdfs").1, false) := by
  have h := move_debounce_two_events "pdfs/a.pdf" "pdfs/b.pdf" "pdfs" 10 11
    (by decide)
  exact ⟨by decide, h.1, h.2.1 (by norm_num)⟩

/-- C7: a modify notification for the watched project file arriving less
than 2 seconds after the last accepted one is discarded with the state
unchanged; otherwise the handler settles and re-checks the size: a size-0
observation fires no event (but records the instant), and a positive size
fires project_file_changed. -/
theorem project_modify_debounce_and_size_guard (st : ModState) (now : ℚ)
    (proj : String) (sz : Except PyErr ℕ) :
    (now - st.last_project_file_mod_time < 2 →
      on_modified st now false proj proj sz = (st, false)) ∧
    (2 ≤ now - st.last_project_file_mod_time → sz = .ok 0 →
      on_modified st now false proj proj sz = (⟨now⟩, false)) ∧
    (2 ≤ now - st.last_project_file_mod_time → ∀ n, sz = .ok n → 0 < n →
      (on_modified st now false proj proj sz).2 = true) := by
  refine ⟨?_, ?_, ?_⟩
  · intro hlt
    simp [on_modified, hlt]
  · intro hge hsz
    have hnlt : ¬ (now - st.last_project_file_mod_time < 2) := not_lt.mpr hge
    simp [on_modified, hnlt, hsz]
  · intro hge n hsz hn
    have hnlt : ¬ (now - st.last_project_file_mod_time < 2) := not_lt.mpr hge
    simp [on_modified, hnlt, hsz, hn]

theorem project_modify_debounce_and_size_guard_witness :
    on_modified ⟨0⟩ 5 false "p.rtf" "p.rtf" (.ok 0) = (⟨5⟩, false) ∧
    on_modified ⟨5⟩ 6 false "p.rtf" "p.rtf" (.ok 7) = (⟨5⟩, false) ∧
    (on_modified ⟨0⟩ 5 false "p.rtf" "p.rtf" (.ok 7)).2 = true := by
  refine ⟨?_, ?_, ?_⟩
  · exact (project_modify_debounce_and_size_guard ⟨0⟩ 5 "p.rtf" (.ok 0)).2.1
      (by norm_num) rfl
  · exact (project_modify_debounce_and_size_guard ⟨5⟩ 6 "p.rtf" (.ok 7)).1
      (by norm_num)
  · exact (project_modify_debounce_and_size_guard ⟨0⟩ 5 "p.rtf" (.ok 7)).2.2
      (by norm_num) 7 rfl (by norm_num)

/-- The similarity of two empty strings is 1, by the zero-length
convention of SequenceMatcher.ratio. -/
lemma ratioOf_empty_empty : ratioOf "" "" = 1 := rfl

/-- C10: a non-empty candidate that normalizes to the empty string
matches any record whose title also normalizes to the empty string, at
every threshold up to 1, because the similarity of the two empty
normalized strings is 1. -/
theorem empty_normalization_spurious_match (c : String) (m : MetaRecord)
    (th : ℚ) (hc : c ≠ "") (hn : normalize_text c = "")
    (hm : normalize_text (m.title.getD "") = "") (hth : th ≤ 1) :
    _find_best_match c [m] th = some m := by
  have hscore : scoreOf (normalize_text c) m = 1 := by
    rw [scoreOf, hn, hm, ratioOf_empty_empty]
  have hcand : scoredCandidates (normalize_text c) [m] th = [(1, m)] := by
    simp only [scoredCandidates, List.filterMap_cons, List.filterMap_nil,
      candFilter, hscore, if_pos hth]
  rw [_find_best_match, if_neg hc, hcand]
  rfl

theorem empty_normalization_spurious_match_witness :
    (" " ≠ "") ∧ normalize_text " " = "" ∧
    normalize_text ((⟨some "", none⟩ : MetaRecord).title.getD "") = "" ∧
    _find_best_match " " [⟨some "", none⟩] 1 = some ⟨some "", none⟩ :=
  ⟨by decide, by decide, by decide,
    empty_normalization_spurious_match " " ⟨some "", none⟩ 1 (by decide)
      (by decide) (by decide) le_rfl⟩

/-- handle_successful_match reports exactly the cascade flag it was
given: whether the cascade ran is decided by on_pdf_detected, not by the
rename bookkeeping. -/
lemma handle_successful_match_ranCascade (st : CtrlState) (env : PdfEnv)
    (ce : CtrlEnv) (m : MetaRecord) (rc : Bool) :
    (handle_successful_match st env ce m rc).2.ranCascade = rc := by
  rw [handle_successful_match]
  cases m.pubMedIdentifier with
  | none => rfl
  | some pid =>
    by_cases hp : pid = ""
    · simp [hp]
    · cases hr : ce.renameResult <;> simp [hp, hr]

/-- handle_successful_match never changes the loaded metadata. -/
lemma handle_successful_match_metadata (st : CtrlState) (env : PdfEnv)
    (ce : CtrlEnv) (m : MetaRecord) (rc : Bool) :
    (handle_successful_match st env ce m rc).1.metadata_set =
      st.metadata_set := by
  rw [handle_successful_match]
  cases m.pubMedIdentifier with
  | none => rfl
  | some pid =>
    by_cases hp : pid = ""
    · simp [hp]
    · cases hr : ce.renameResult with
      | ok v => by_cases hh : hintTruthy st.pmid_hint <;> simp [hp, hr, hh]
      | error e => simp [hp, hr]

/-- C5: with a truthy manual hint set, a loaded metadata set and a
succeeding rename, the next detected PDF is force-associated with the
hint (the cascade does not run and the PDF is renamed with the hint's
PMID prefix), the hint clears itself, the metadata set is unchanged, and
any PDF detected afterwards is processed by the cascade. -/
theorem pmid_hint_force_association (st : CtrlState) (env : PdfEnv)
    (ce : CtrlEnv) (h : String) (hh : st.pmid_hint = some h) (hne : h ≠ "")
    (hmeta : st.metadata_set ≠ []) (hren : ce.renameResult = .ok ()) :
    (on_pdf_detected st env ce).2.ranCascade = false ∧
    (on_pdf_detected st env ce).2.renamedTo =
      some ("PMID:" ++ h ++ "-" ++ (env.stem ++ env.ext)) ∧
    (on_pdf_detected st env ce).1.pmid_hint = none ∧
    (on_pdf_detected st env ce).1.metadata_set = st.metadata_set ∧
    (∀ env2 ce2,
      (on_pdf_detected (on_pdf_detected st env ce).1 env2 ce2).2.ranCascade =
        true) := by
  have htr : hintTruthy st.pmid_hint = true := by
    rw [hh]; simpa [hintTruthy] using hne
  have hstep : on_pdf_detected st env ce =
      handle_successful_match st env ce
        ⟨some ("Manually Associated with PMID:" ++ h), some h⟩ false := by
    rw [on_pdf_detected, if_neg hmeta, if_pos htr, hh]
    rfl
  have hhsm : handle_successful_match st env ce
      ⟨some ("Manually Associated with PMID:" ++ h), some h⟩ false =
      ({ st with pmid_hint := none },
        ⟨false, some ("PMID:" ++ h ++ "-" ++ (env.stem ++ env.ext)), false,
          ce.titleFileExists && ce.removeOk⟩) := by
    rw [handle_successful_match]
    simp only [hren, htr, if_neg hne]
    simp
  rw [hstep, hhsm]
  refine ⟨rfl, rfl, rfl, rfl, ?_⟩
  intro env2 ce2
  have hm2 : ({ st with pmid_hint := none } : CtrlState).metadata_set ≠ [] :=
    hmeta
  rw [on_pdf_detected, if_neg hm2]
  have : hintTruthy ({ st with pmid_hint := none } : CtrlState).pmid_hint =
      false := rfl
  rw [this]
  simp only [Bool.false_eq_true, if_false]
  cases (match_pdf_to_metadata env2
      ({ st with pmid_hint := none } : CtrlState).metadata_set).result with
  | some m => exact handle_successful_match_ranCascade _ _ _ _ _
  | none => rfl

/-- Concrete PDF environment for the manual-hint witness. -/
def envW5 : PdfEnv :=
  ⟨"pdfs", "paper", ".pdf", .ok none, none, .error ⟨true⟩, none, .ok ()⟩

theorem pmid_hint_force_association_witness :
    (⟨some "42", [⟨some "t", some "1"⟩]⟩ : CtrlState).pmid_hint = some "42" ∧
    (on_pdf_detected ⟨some "42", [⟨some "t", some "1"⟩]⟩ envW5
      ⟨false, true, .ok ()⟩).2.ranCascade = false ∧
    (on_pdf_detected ⟨some "42", [⟨some "t", some "1"⟩]⟩ envW5
      ⟨false, true, .ok ()⟩).2.renamedTo = some "PMID:42-paper.pdf" ∧
    (on_pdf_detected ⟨some "42", [⟨some "t", some "1"⟩]⟩ envW5
      ⟨false, true, .ok ()⟩).1.pmid_hint = none := by
  have h := pmid_hint_force_association ⟨some "42", [⟨some "t", some "1"⟩]⟩
    envW5 ⟨false, true, .ok ()⟩ "42" rfl (by decide) (by decide) rfl
  exact ⟨rfl, h.1, h.2.1, h.2.2.1⟩

/-- C2: whenever a sidecar cache file exists for the PDF — whatever its
content, even the empty nothing-found sentinel — a match invocation never
calls get_title_from_text; and when the sidecar is read and strips to the
empty string, step 3 reports no match (so if the earlier steps also
failed, the invocation returns no match). -/
theorem sidecar_suppresses_extraction (env : PdfEnv)
    (ms : List MetaRecord) (r : Except PyErr String)
    (hs : env.sidecar = some r) :
    (match_pdf_to_metadata env ms).calledExtraction = false ∧
    (∀ s, r = .ok s → pyStrip s = "" →
      (metadataTitle env).length < 8 →
      _find_best_match (filenameTitle env) ms (mkRat 6 10) = none →
      (match_pdf_to_metadata env ms).result = none) := by
  constructor
  · rw [wrap_calledExtraction, matchBody]
    by_cases h8 : 8 ≤ (metadataTitle env).length
    · rw [if_pos h8]
    · rw [if_neg h8]
      cases hf : _find_best_match (filenameTitle env) ms (mkRat 6 10) with
      | some m => rfl
      | none =>
        rw [hs]
        cases r with
        | ok s =>
          by_cases hc : pyStrip s = ""
          · simp [hc]
          · simp only [if_neg hc]
            cases _find_best_match (pyStrip s) ms (mkRat 9 10) <;> simp
        | error e => cases he : e.isOSError <;> simp [he]
  · intro s hr hstrip h8 hfil
    have h8n : ¬ 8 ≤ (metadataTitle env).length := not_le.mpr h8
    refine wrap_result_ok env ms none ?_
    rw [matchBody, if_neg h8n, hfil, hs, hr]
    simp [hstrip]

/-- Concrete PDF environment with an empty sidecar for the C2 witness. -/
def envW2 : PdfEnv :=
  ⟨"pdfs", "zz", ".pdf", .ok none, some (.ok ""), .error ⟨true⟩, none,
    .ok ()⟩

theorem sidecar_suppresses_extraction_witness :
    envW2.sidecar = some (.ok "") ∧
    (match_pdf_to_metadata envW2 []).calledExtraction = false ∧
    (match_pdf_to_metadata envW2 []).result = none := by
  have h := sidecar_suppresses_extraction envW2 [] (.ok "") rfl
  exact ⟨rfl, h.1, h.2 "" rfl rfl (by decide) rfl⟩

/-- C1 (amended): for every PDF whose embedded title has trimmed length
at least 8 — the measure the code applies, len of the stripped raw
title — the outcome of match_pdf_to_metadata is exactly the outcome of
_find_best_match on that title at threshold 0.9, returned immediately
whether it is a match or not: extraction never runs and no sidecar is
written, so records that would match only via filename or content yield
no match. -/
theorem title_ge8_trimmed_terminal (env : PdfEnv) (ms : List MetaRecord)
    (h : 8 ≤ (metadataTitle env).length) :
    match_pdf_to_metadata env ms =
      ⟨_find_best_match (metadataTitle env) ms (mkRat 9 10), false, none⟩ := by
  have hb : matchBody env ms =
      ⟨.ok (_find_best_match (metadataTitle env) ms (mkRat 9 10)), false,
        none⟩ := by
    rw [matchBody, if_pos h]
  rw [match_pdf_to_metadata, hb]

/-- Concrete environment whose embedded title has 16 trimmed characters
while the only record would match via the filename. -/
def envW1 : PdfEnv :=
  ⟨"pdfs", "match-me", ".pdf", .ok (some "A specific title"), none,
    .error ⟨true⟩, none, .ok ()⟩

theorem title_ge8_trimmed_terminal_witness :
    8 ≤ (metadataTitle envW1).length ∧
    match_pdf_to_metadata envW1 [⟨some "match me", some "1"⟩] =
      ⟨_find_best_match (metadataTitle envW1) [⟨some "match me", some "1"⟩]
        (mkRat 9 10), false, none⟩ :=
  ⟨by decide, title_ge8_trimmed_terminal envW1 [⟨some "match me", some "1"⟩]
    (by decide)⟩

/-- Environment whose embedded title consists of four fi ligatures: its
trimmed length is 4, but it normalizes to the 8 ASCII characters
fifififi. -/
def envC1 : PdfEnv :=
  ⟨"pdfs", "match-me", ".pdf", .ok (some "ﬁﬁﬁﬁ"), none, .error ⟨true⟩,
    none, .ok ()⟩

/-- The record list for the C1 counterexample: matches the filename
candidate exactly, and shares no character with the normalized embedded
title. -/
def recsC1 : List MetaRecord := [⟨some "match me", some "1"⟩]

/-- C1 (counterexample): under the normalized measure of spec section 8,
the claim fails: this embedded title is 8 normalized characters long, yet
the engine does not return the step-1 outcome — the filename step runs
and matches a record the embedded title cannot match. -/
theorem title_ge8_normalized_not_terminal_cex :
    8 ≤ (normalize_text (metadataTitle envC1)).length ∧
    (metadataTitle envC1).length < 8 ∧
    (match_pdf_to_metadata envC1 recsC1).result ≠
      _find_best_match (metadataTitle envC1) recsC1 (mkRat 9 10) := by
  refine ⟨by decide, by decide, ?_⟩
  decide

/-- Environment with no sidecar whose PDF cannot be read by PyPDF2:
step 3 runs and invokes extraction, but no sidecar is written. -/
def envC3 : PdfEnv :=
  ⟨"pdfs", "x", ".pdf", .ok none, none, .error ⟨true⟩, none, .ok ()⟩

/-- C3 (counterexample): step 3 runs with no sidecar present and the
extraction capability is invoked, yet no sidecar file is written,
because get_title_from_text returns before its caching block when the
PDF's text cannot be read. -/
theorem extraction_without_sidecar_write_cex :
    envC3.sidecar = none ∧
    (match_pdf_to_metadata envC3 []).calledExtraction = true ∧
    (match_pdf_to_metadata envC3 []).wroteSidecar = none := by
  refine ⟨rfl, rfl, rfl⟩

/-- The cleaned text of an empty accumulation is empty. -/
lemma cleanTitleText_empty : cleanTitleText "" = "" := rfl

/-- C3 (amended): whenever step 3 runs for a PDF with no sidecar cache
file, the extraction capability is invoked; if the PDF's text is read
successfully, is non-empty after cleaning, and the cache write succeeds,
then the extraction result — the extracted title, or the empty string
when nothing was found — is written to a new sidecar file, regardless of
whether the overall match succeeds.  When the text cannot be read or
cleans to empty, no sidecar is created. -/
theorem extraction_writes_sidecar_on_readable_text (env : PdfEnv)
    (ms : List MetaRecord) (hnoc : env.sidecar = none)
    (h8 : (metadataTitle env).length < 8)
    (hfil : _find_best_match (filenameTitle env) ms (mkRat 6 10) = none) :
    (match_pdf_to_metadata env ms).calledExtraction = true ∧
    (∀ pages, env.pdfPages = .ok pages →
      cleanTitleText (strTake (accumPages pages "") 3000) ≠ "" →
      env.cacheWrite = .ok () →
      (match_pdf_to_metadata env ms).wroteSidecar =
        some ((env.lxResult).getD "")) ∧
    (env.pdfPages = .error ⟨true⟩ →
      (match_pdf_to_metadata env ms).wroteSidecar = none) := by
  have h8n : ¬ 8 ≤ (metadataTitle env).length := not_le.mpr h8
  have hbody : matchBody env ms =
      (let er := get_title_from_text env
       match er.ret with
       | .error e => ⟨.error e, true, er.wrote⟩
       | .ok content_title =>
         match content_title with
         | some t =>
           if t = "" then ⟨.ok none, true, er.wrote⟩
           else
             match _find_best_match t ms (mkRat 9 10) with
             | some m => ⟨.ok (some m), true, er.wrote⟩
             | none => ⟨.ok none, true, er.wrote⟩
         | none => ⟨.ok none, true, er.wrote⟩) := by
    rw [matchBody, if_neg h8n, hfil, hnoc]
  have hcalled : (matchBody env ms).calledExtraction = true := by
    rw [hbody]
    cases hret : (get_title_from_text env).ret with
    | error e => simp [hret]
    | ok ct =>
      cases ct with
      | none => simp [hret]
      | some t =>
        by_cases ht : t = ""
        · simp [hret, ht]
        · cases hfm : _find_best_match t ms (mkRat 9 10) <;>
            simp [hret, ht, hfm]
  have hwrote : (matchBody env ms).wroteSidecar =
      (get_title_from_text env).wrote := by
    rw [hbody]
    cases hret : (get_title_from_text env).ret with
    | error e => simp [hret]
    | ok ct =>
      cases ct with
      | none => simp [hret]
      | some t =>
        by_cases ht : t = ""
        · simp [hret, ht]
        · cases hfm : _find_best_match t ms (mkRat 9 10) <;>
            simp [hret, ht, hfm]
  refine ⟨?_, ?_, ?_⟩
  · rw [wrap_calledExtraction, hcalled]
  · intro pages hpg hclean hcw
    have htext : strTake (accumPages pages "") 3000 ≠ "" := by
      intro hcontra
      rw [hcontra, cleanTitleText_empty] at hclean
      exact hclean rfl
    have hg : get_title_from_text env =
        ⟨.ok env.lxResult, some ((env.lxResult).getD "")⟩ := by
      rw [get_title_from_text, hpg]
      simp only [if_neg htext, if_neg hclean, hcw]
    rw [wrap_wroteSidecar, hwrote, hg]
  · intro hpg
    have hg : get_title_from_text env = ⟨.ok none, none⟩ := by
      rw [get_title_from_text, hpg]
    rw [wrap_wroteSidecar, hwrote, hg]

/-- Environment for the amended C3 witness: readable one-page PDF text,
an extraction result, and a succeeding cache write. -/
def envW3 : PdfEnv :=
  ⟨"pdfs", "zz", ".pdf", .ok none, none, .ok [some "Some page text"],
    some "A found title", .ok ()⟩

set_option maxRecDepth 4000 in
theorem extraction_writes_sidecar_on_readable_text_witness :
    envW3.sidecar = none ∧
    (match_pdf_to_metadata envW3 []).calledExtraction = true ∧
    (match_pdf_to_metadata envW3 []).wroteSidecar = some "A found title" ∧
    (match_pdf_to_metadata envW3 []).result = none := by
  have h := extraction_writes_sidecar_on_readable_text envW3 [] rfl
    (by decide) rfl
  exact ⟨rfl, h.1, h.2.1 [some "Some page text"] rfl (by decide) rfl, rfl⟩

/-- Python max scans left to right and replaces only on strict increase,
so it returns the first element attaining the maximal key: the list
splits around the result, everything before it is strictly below it, and
nothing exceeds it. -/
lemma pyMaxBy_first_max (c : ℚ × MetaRecord) (cs : List (ℚ × MetaRecord)) :
    ∃ l1 l2, c :: cs = l1 ++ pyMaxBy c cs :: l2 ∧
      (∀ y ∈ l1, y.1 < (pyMaxBy c cs).1) ∧
      (∀ y ∈ c :: cs, y.1 ≤ (pyMaxBy c cs).1) := by
  induction cs generalizing c with
  | nil =>
    refine ⟨[], [], rfl, by simp, ?_⟩
    intro y hy
    have hyc : y = c := by simpa using hy
    subst hyc
    exact le_refl _
  | cons x xs ih =>
    by_cases hx : c.1 < x.1
    · have hred : pyMaxBy c (x :: xs) = pyMaxBy x xs := by
        rw [pyMaxBy, if_pos hx]
      obtain ⟨l1, l2, heq, hlt, hle⟩ := ih x
      refine ⟨c :: l1, l2, ?_, ?_, ?_⟩
      · rw [hred, List.cons_append, ← heq]
      · intro y hy
        rw [hred]
        rcases List.mem_cons.mp hy with hy | hy
        · subst hy
          exact lt_of_lt_of_le hx (hle x (List.mem_cons_self x xs))
        · exact hlt y hy
      · intro y hy
        rw [hred]
        rcases List.mem_cons.mp hy with hy | hy
        · subst hy
          exact le_of_lt (lt_of_lt_of_le hx (hle x (List.mem_cons_self x xs)))
        · exact hle y hy
    · have hred : pyMaxBy c (x :: xs) = pyMaxBy c xs := by
        rw [pyMaxBy, if_neg hx]
      have hxc : x.1 ≤ c.1 := le_of_not_lt hx
      obtain ⟨l1, l2, heq, hlt, hle⟩ := ih c
      cases l1 with
      | nil =>
        have hc1 : c = pyMaxBy c xs := by
          have := heq
          rw [List.nil_append] at this
          exact (List.cons_eq_cons.mp this).1
        refine ⟨[], x :: xs, ?_, by simp, ?_⟩
        · rw [hred, List.nil_append, ← hc1]
        · intro y hy
          rw [hred]
          rcases List.mem_cons.mp hy with hy | hy
        

          · subst hy; rw [← hc1]
          · rcases List.mem_cons.mp hy with hy2 | hy2
            · subst hy2; rw [← hc1]; exact hxc
            · exact hle y (List.mem_cons_of_mem c hy2)
      | cons z l1t =>
        rw [List.cons_append] at heq
        have hz : z = c := ((List.cons_eq_cons.mp heq).1).symm
        have hxs : xs = l1t ++ pyMaxBy c xs :: l2 :=
          (List.cons_eq_cons.mp heq).2
        have hclt : c.1 < (pyMaxBy c xs).1 := by
          have := hlt z (List.mem_cons_self z l1t)
          rw [hz] at this
          exact this
        refine ⟨c :: x :: l1t, l2, ?_, ?_, ?_⟩
        · rw [hred, List.cons_append, List.cons_append, ← hxs]
        · intro y hy
          rw [hred]
          rcases List.mem_cons.mp hy with hy | hy
          · subst hy; exact hclt
          · rcases List.mem_cons.mp hy with hy2 | hy2
            · subst hy2; exact lt_of_le_of_lt hxc hclt
            · exact hlt y (List.mem_cons_of_mem z hy2)
        · intro y hy
          rw [hred]
          rcases List.mem_cons.mp hy with hy | hy
          · subst hy; exact hle y (List.mem_cons_self _ _)
          · rcases List.mem_cons.mp hy with hy2 | hy2
            · subst hy2
              exact le_trans hxc (hle c (List.mem_cons_self _ _))
            · exact hle y (List.mem_cons_of_mem _ hy2)

/-- A decomposition of the output of filterMap lifts to a decomposition
of its input: the element producing x is preceded exactly by the
producers of l1. -/
lemma filterMap_split {α β : Type} (f : α → Option β) :
    ∀ (rs : List α) (l1 : List β) (x : β) (l2 : List β),
      rs.filterMap f = l1 ++ x :: l2 →
      ∃ pre a post, rs = pre ++ a :: post ∧ f a = some x ∧
        pre.filterMap f = l1 := by
  intro rs
  induction rs with
  | nil =>
    intro l1 x l2 h
    simp at h
  | cons r rest ih =>
    intro l1 x l2 h
    rw [List.filterMap_cons] at h
    cases hf : f r with
    | none =>
      rw [hf] at h
      obtain ⟨pre, a, post, h1, h2, h3⟩ := ih l1 x l2 h
      exact ⟨r :: pre, a, post, by rw [List.cons_append, h1], h2,
        by rw [List.filterMap_cons, hf, h3]⟩
    | some b =>
      rw [hf] at h
      cases l1 with
      | nil =>
        rw [List.nil_append] at h
        have hb : b = x := (List.cons_eq_cons.mp h).1
        exact ⟨[], r, rest, rfl, by rw [hf, hb], by simp⟩
      | cons z l1t =>
        rw [List.cons_append] at h
        have hb : b = z := (List.cons_eq_cons.mp h).1
        have hrest : rest.filterMap f = l1t ++ x :: l2 :=
          (List.cons_eq_cons.mp h).2
        obtain ⟨pre, a, post, h1, h2, h3⟩ := ih l1t x l2 hrest
        exact ⟨r :: pre, a, post, by rw [List.cons_append, h1], h2,
          by rw [List.filterMap_cons, hf, h3, hb]⟩

/-- The candidates list is empty exactly when every record scores below
the threshold. -/
lemma scoredCandidates_nil_iff (norm : String) (ms : List MetaRecord)
    (thr : ℚ) :
    scoredCandidates norm ms thr = [] ↔
      ∀ m ∈ ms, scoreOf norm m < thr := by
  induction ms with
  | nil => simp [scoredCandidates]
  | cons m rest ih =>
    rw [scoredCandidates, List.filterMap_cons]
    by_cases hm : thr ≤ scoreOf norm m
    · rw [candFilter, if_pos hm]
      constructor
      · intro h
        exact absurd h (List.cons_ne_nil _ _)
      · intro h
        exact absurd (h m (List.mem_cons_self m rest)) (not_lt.mpr hm)
    · rw [candFilter, if_neg hm]
      rw [← scoredCandidates, ih]
      constructor
      · intro h m2 hm2
        rcases List.mem_cons.mp hm2 with he | he
        · subst he; exact lt_of_not_le hm
        · exact h m2 he
      · intro h m2 hm2
        exact h m2 (List.mem_cons_of_mem _ hm2)

/-- C4: _find_best_match returns no match exactly when the candidate is
empty or no record scores at least the threshold; and when it returns a
record, that record clears the threshold, attains the maximum similarity
over all records, and is the first record in input order to attain it
(every earlier record scores strictly below it). -/
theorem find_best_match_argmax (t : String) (rs : List MetaRecord)
    (thr : ℚ) :
    (_find_best_match t rs thr = none ↔
      t = "" ∨ ∀ m ∈ rs, recScore t m < thr) ∧
    (∀ r, _find_best_match t rs thr = some r →
      ∃ pre post, rs = pre ++ r :: post ∧ thr ≤ recScore t r ∧
        (∀ m ∈ rs, recScore t m ≤ recScore t r) ∧
        (∀ m ∈ pre, recScore t m < recScore t r)) := by
  simp only [recScore]
  constructor
  · by_cases ht : t = ""
    · simp [_find_best_match, ht]
    · rw [_find_best_match, if_neg ht]
      cases hc : scoredCandidates (normalize_text t) rs thr with
      | nil =>
        simp only [true_iff]
        exact Or.inr ((scoredCandidates_nil_iff _ _ _).mp hc)
      | cons c cs =>
        constructor
        · intro h
          exact absurd h (by simp)
        · intro h
          rcases h with h | h
          · exact absurd h ht
          · have : scoredCandidates (normalize_text t) rs thr = [] :=
              (scoredCandidates_nil_iff _ _ _).mpr h
            rw [hc] at this
            exact absurd this (List.cons_ne_nil _ _)
  · intro r hr
    rw [_find_best_match] at hr
    by_cases ht : t = ""
    · rw [if_pos ht] at hr
      exact absurd hr (by simp)
    · rw [if_neg ht] at hr
      cases hc : scoredCandidates (normalize_text t) rs thr with
      | nil =>
        rw [hc] at hr
        exact absurd hr (by simp)
      | cons c cs =>
        rw [hc] at hr
        have hr2 : (pyMaxBy c cs).2 = r := by
          injection hr
        obtain ⟨l1, l2, heq, hlt, hle⟩ := pyMaxBy_first_max c cs
        rw [← hc] at heq
        obtain ⟨pre, a, post, hsplit, hfa, hpre⟩ :=
          filterMap_split (candFilter (normalize_text t) thr) rs l1
            (pyMaxBy c cs) l2 heq
        have hth : thr ≤ scoreOf (normalize_text t) a := by
          by_contra hn
          rw [candFilter, if_neg hn] at hfa
          exact absurd hfa (by simp)
        have hM : pyMaxBy c cs = (scoreOf (normalize_text t) a, a) := by
          rw [candFilter, if_pos hth] at hfa
          exact (Option.some_injective _ hfa).symm
        have har : a = r := by
          rw [← hr2, hM]
        subst har
        refine ⟨pre, post, hsplit, hth, ?_, ?_⟩
        · intro m hm
          by_cases hmth : thr ≤ scoreOf (normalize_text t) m
          · have hmem : (scoreOf (normalize_text t) m, m) ∈
                scoredCandidates (normalize_text t) rs thr :=
              List.mem_filterMap.mpr
                ⟨m, hm, by rw [candFilter, if_pos hmth]⟩
            rw [hc] at hmem
            have := hle _ hmem
            rw [hM] at this
            exact this
          · exact le_trans (le_of_lt (lt_of_not_le hmth)) hth
        · intro m hm
          by_cases hmth : thr ≤ scoreOf (normalize_text t) m
          · have hmem : (scoreOf (normalize_text t) m, m) ∈
                pre.filterMap (candFilter (normalize_text t) thr) :=
              List.mem_filterMap.mpr
                ⟨m, hm, by rw [candFilter, if_pos hmth]⟩
            rw [hpre] at hmem
            have := hlt _ hmem
            rw [hM] at this
            exact this
          · exact lt_of_lt_of_le (lt_of_not_le hmth) hth

theorem find_best_match_argmax_witness :
    _find_best_match "" [⟨some "x", none⟩] (mkRat 9 10) = none :=
  (find_best_match_argmax "" [⟨some "x", none⟩] (mkRat 9 10)).1.mpr
    (Or.inl rfl)
